import Mathlib

/-!
Verification of the bounded-path type `MultiLocation` from
`src/xcm/src/v0/multi_location.rs` (XCM v0).  The Rust enum, its
operations and its four iterators are shallowly embedded below; mutating
Rust methods become state-passing Lean functions returning the new value
of `self` together with the Rust return value.
-/

/-- Modelled from the spec: the step type `Junction` is external to the
source file under verification (it lives in `src/xcm/src/v0/junction.rs`,
which is not provided).  The spec treats it as an opaque, cloneable,
comparable, orderable value with one designated "ascend" marker variant
`Parent`; all other variants are opaque, represented here by a natural
number.  The derived Rust ordering puts the declared-first variant
(`Parent`) smallest and compares payloads within a variant. -/
inductive Junction : Type where
  | Parent : Junction
  | Other : Nat → Junction
deriving DecidableEq, Repr

/-- Modelled from the spec: the derived total order on the external step
type: `Parent` (the declared-first variant) sorts below every other
variant, and opaque variants compare by their payload. -/
def Junction.cmp : Junction → Junction → Ordering
  | .Parent, .Parent => .eq
  | .Parent, .Other _ => .lt
  | .Other _, .Parent => .gt
  | .Other m, .Other n => compare m n

/-- The bounded path enum, `MultiLocation` (multi_location.rs lines 25-32):
`Null`, `X1` .. `X4`, length 0 to 4 encoded by the variant. -/
inductive MultiLocation : Type where
  | Null : MultiLocation
  | X1 : Junction → MultiLocation
  | X2 : Junction → Junction → MultiLocation
  | X3 : Junction → Junction → Junction → MultiLocation
  | X4 : Junction → Junction → Junction → Junction → MultiLocation
deriving DecidableEq, Repr

/-- Abstraction function: the steps of a path, outermost (root-most) first.
Not in the source; used to state properties. -/
def MultiLocation.toList : MultiLocation → List Junction
  | .Null => []
  | .X1 a => [a]
  | .X2 a b => [a, b]
  | .X3 a b c => [a, b, c]
  | .X4 a b c d => [a, b, c, d]

/-- Inverse of `toList` on lists of length at most 4 (lists longer than 4
never arise from a path; they are truncated).  Not in the source; used to
state properties without existential quantifiers. -/
def MultiLocation.ofList : List Junction → MultiLocation
  | [] => .Null
  | [a] => .X1 a
  | [a, b] => .X2 a b
  | [a, b, c] => .X3 a b c
  | [a, b, c, d] => .X4 a b c d
  | a :: b :: c :: d :: _ => .X4 a b c d

/-- Source `first` (lines 132-140): borrow the outermost step, `None` on
`Null`. -/
def MultiLocation.first : MultiLocation → Option Junction
  | .Null => none
  | .X1 a => some a
  | .X2 a _ => some a
  | .X3 a _ _ => some a
  | .X4 a _ _ _ => some a

/-- Source `last` (lines 141-149): borrow the innermost step. -/
def MultiLocation.last : MultiLocation → Option Junction
  | .Null => none
  | .X1 a => some a
  | .X2 _ a => some a
  | .X3 _ _ a => some a
  | .X4 _ _ _ a => some a

/-- Source `split_first` (lines 150-158): (remaining path, removed
outermost step). -/
def MultiLocation.split_first : MultiLocation → MultiLocation × Option Junction
  | .Null => (.Null, none)
  | .X1 a => (.Null, some a)
  | .X2 a b => (.X1 b, some a)
  | .X3 a b c => (.X2 b c, some a)
  | .X4 a b c d => (.X3 b c d, some a)

/-- Source `split_last` (lines 159-167): (remaining path, removed
innermost step). -/
def MultiLocation.split_last : MultiLocation → MultiLocation × Option Junction
  | .Null => (.Null, none)
  | .X1 a => (.Null, some a)
  | .X2 a b => (.X1 a, some b)
  | .X3 a b c => (.X2 a b, some c)
  | .X4 a b c d => (.X3 a b c, some d)

/-- Source `take_first` (lines 168-174): swap `self` out for `Null`,
`split_first` the old value, write the tail back and return the head.
Modelled as (new value of `self`, returned option). -/
def MultiLocation.take_first (self : MultiLocation) : MultiLocation × Option Junction :=
  let d := self
  let (tail, head) := d.split_first
  (tail, head)

/-- Source `take_last` (lines 175-181): symmetric, via `split_last`. -/
def MultiLocation.take_last (self : MultiLocation) : MultiLocation × Option Junction :=
  let d := self
  let (head, tail) := d.split_last
  (head, tail)

/-- Source `pushed_with` (lines 182-190): append at the innermost end,
`Err(self)` when already length 4. -/
def MultiLocation.pushed_with (self : MultiLocation) (new : Junction) :
    Except MultiLocation MultiLocation :=
  match self with
  | .Null => .ok (.X1 new)
  | .X1 a => .ok (.X2 a new)
  | .X2 a b => .ok (.X3 a b new)
  | .X3 a b c => .ok (.X4 a b c new)
  | s => .error s

/-- Source `pushed_front_with` (lines 191-199): append at the outermost
end, `Err(self)` when already length 4. -/
def MultiLocation.pushed_front_with (self : MultiLocation) (new : Junction) :
    Except MultiLocation MultiLocation :=
  match self with
  | .Null => .ok (.X1 new)
  | .X1 a => .ok (.X2 new a)
  | .X2 a b => .ok (.X3 new a b)
  | .X3 a b c => .ok (.X4 new a b c)
  | s => .error s

/-- Source `len` (lines 200-208). -/
def MultiLocation.len : MultiLocation → Nat
  | .Null => 0
  | .X1 _ => 1
  | .X2 _ _ => 2
  | .X3 _ _ _ => 3
  | .X4 _ _ _ _ => 4

/-- Source `at` (lines 210-224); named `atIndex` because `at` is reserved
in Lean.  Index 0 is the outermost step; any unmatched (index, case)
combination yields `none`. -/
def MultiLocation.atIndex : MultiLocation → Nat → Option Junction
  | .X1 a, 0 => some a
  | .X2 a _, 0 => some a
  | .X3 a _ _, 0 => some a
  | .X4 a _ _ _, 0 => some a
  | .X2 _ b, 1 => some b
  | .X3 _ b _, 1 => some b
  | .X4 _ b _ _, 1 => some b
  | .X3 _ _ c, 2 => some c
  | .X4 _ _ c _, 2 => some c
  | .X4 _ _ _ d, 3 => some d
  | _, _ => none

/-- Source `push` (lines 255-262): swap out, try `pushed_with`, write back
the new value on success or the old value on failure.  Modelled as
(new value of `self`, `Ok(())` or `Err(())`). -/
def MultiLocation.push (self : MultiLocation) (new : Junction) :
    MultiLocation × Except Unit Unit :=
  let n := self
  match n.pushed_with new with
  | .ok result => (result, .ok ())
  | .error old => (old, .error ())

/-- Source `push_front` (lines 264-271): symmetric via
`pushed_front_with`. -/
def MultiLocation.push_front (self : MultiLocation) (new : Junction) :
    MultiLocation × Except Unit Unit :=
  let n := self
  match n.pushed_front_with new with
  | .ok result => (result, .ok ())
  | .error old => (old, .error ())

/-- Source `MultiLocationIterator::next` (lines 96-102): owned forward
iteration, `self.0.take_first()`. -/
def MultiLocationIterator.next (s : MultiLocation) :
    Option Junction × MultiLocation :=
  let t := s.take_first
  (t.2, t.1)

/-- Source `MultiLocationReverseIterator::next` (lines 104-110): owned
reverse iteration, `self.0.take_last()`. -/
def MultiLocationReverseIterator.next (s : MultiLocation) :
    Option Junction × MultiLocation :=
  let t := s.take_last
  (t.2, t.1)

/-- Source `MultiLocationRefIterator::next` (lines 112-120): borrowed
forward iteration; state is (the borrowed path, the next index); returns
`at(i)` then increments the index. -/
def MultiLocationRefIterator.next (s : MultiLocation × Nat) :
    Option Junction × (MultiLocation × Nat) :=
  let result := s.1.atIndex s.2
  (result, (s.1, s.2 + 1))

/-- Source `MultiLocationReverseRefIterator::next` (lines 122-129):
borrowed reverse iteration; increments the count first, then indexes at
`len().checked_sub(count)`, yielding `none` when the subtraction
underflows. -/
def MultiLocationReverseRefIterator.next (s : MultiLocation × Nat) :
    Option Junction × (MultiLocation × Nat) :=
  let c := s.2 + 1
  let result := if c ≤ s.1.len then s.1.atIndex (s.1.len - c) else none
  (result, (s.1, c))

/-- Fuel-indexed loop body of `appended_with` (lines 274-280): the `for`
loop draws junctions from `new` through `MultiLocationIterator`
(i.e. `take_first`) and pushes each onto `result`, propagating a push
failure as `Err` of the partial result.  A path holds at most 4 steps, so
fuel 4 runs the loop to completion. -/
def appendLoop : Nat → MultiLocation → MultiLocation →
    Except MultiLocation MultiLocation
  | 0, _, r => .ok r
  | n + 1, it, r =>
    match it.take_first with
    | (it2, some j) =>
      match r.pushed_with j with
      | .ok r2 => appendLoop n it2 r2
      | .error e => .error e
    | (_, none) => .ok r

/-- Source `appended_with` (lines 274-280). -/
def MultiLocation.appended_with (self new : MultiLocation) :
    Except MultiLocation MultiLocation :=
  appendLoop 4 new self

/-- Fuel-indexed cancellation loop of `prepend_with` (lines 286-293):
while the prefix's innermost step exists and is not `Parent` and `self`'s
outermost step is `Parent`, drop both.  Each iteration shortens the
prefix, whose length is at most 4, so fuel 4 runs the loop to its real
fixpoint. -/
def cancelLoop : Nat → MultiLocation → MultiLocation →
    MultiLocation × MultiLocation
  | 0, p, s => (p, s)
  | n + 1, p, s =>
    match p.last, s.first with
    | some x, some Junction.Parent =>
      if x = Junction.Parent then (p, s)
      else cancelLoop n (p.take_last).1 (s.take_first).1
    | _, _ => (p, s)

/-- Fuel-indexed splice loop of `prepend_with` (lines 294-297): the `for`
loop draws junctions from the prefix through
`MultiLocationReverseIterator` (i.e. `take_last`, innermost first) and
pushes each onto the front of `self`, ignoring failures.  Fuel 4 empties
any prefix. -/
def spliceLoop : Nat → MultiLocation → MultiLocation → MultiLocation
  | 0, _, s => s
  | n + 1, p, s =>
    match p.take_last with
    | (p2, some j) => spliceLoop n p2 (s.push_front j).1
    | (_, none) => s

/-- Source `prepend_with` (lines 284-298): clone the prefix, run the
cancellation loop, then splice the remaining prefix onto the front of
`self`, failing silently on overflow.  Returns the new value of `self`. -/
def MultiLocation.prepend_with (self pre : MultiLocation) : MultiLocation :=
  let ps := cancelLoop 4 pre self
  spliceLoop 4 ps.1 ps.2

/-- Modelled from the spec: the versioned envelope `VersionedMultiLocation`
is declared at the crate root, outside the provided source file.  The spec
describes it as a version-tagged envelope whose `V0` case wraps the path
directly and whose other version tags carry nothing this core can decode;
the other tags are represented abstractly by their version number. -/
inductive VersionedMultiLocation : Type where
  | V0 : MultiLocation → VersionedMultiLocation
  | VOther : Nat → VersionedMultiLocation
deriving DecidableEq, Repr

/-- Source `From<MultiLocation> for VersionedMultiLocation`
(lines 301-305): always wrap in `V0`. -/
def MultiLocation.toVersioned (x : MultiLocation) : VersionedMultiLocation :=
  .V0 x

/-- Source `TryFrom<VersionedMultiLocation> for MultiLocation`
(lines 307-314): unwrap `V0`; any other version tag (which exists only in
the spec-modelled envelope) yields the no-payload error `Err(())`. -/
def MultiLocation.tryFromVersioned : VersionedMultiLocation →
    Except Unit MultiLocation
  | .V0 x => .ok x
  | .VOther _ => .error ()

/-- Rust `derive(Ord, PartialOrd)` on `MultiLocation` (line 25): compare
variant discriminants in declaration order first, then the fields of equal
variants lexicographically. -/
def MultiLocation.cmp : MultiLocation → MultiLocation → Ordering
  | .Null, .Null => .eq
  | .Null, _ => .lt
  | _, .Null => .gt
  | .X1 a, .X1 e => Junction.cmp a e
  | .X1 _, _ => .lt
  | _, .X1 _ => .gt
  | .X2 a b, .X2 e f => (Junction.cmp a e).then (Junction.cmp b f)
  | .X2 _ _, _ => .lt
  | _, .X2 _ _ => .gt
  | .X3 a b c, .X3 e f g =>
    (Junction.cmp a e).then ((Junction.cmp b f).then (Junction.cmp c g))
  | .X3 _ _ _, _ => .lt
  | _, .X3 _ _ _ => .gt
  | .X4 a b c d, .X4 e f g h =>
    (Junction.cmp a e).then
      ((Junction.cmp b f).then ((Junction.cmp c g).then (Junction.cmp d h)))

/-- Pointwise lexicographic comparison of step sequences, the reference
order the spec describes.  Not in the source; used to state the ordering
claim. -/
def lexCmp : List Junction → List Junction → Ordering
  | [], [] => .eq
  | [], _ :: _ => .lt
  | _ :: _, [] => .gt
  | a :: as, b :: bs => (Junction.cmp a b).then (lexCmp as bs)

-- Basic helper lemmas

lemma MultiLocation.len_le_four : ∀ m : MultiLocation, m.len ≤ 4 := by
  intro m; cases m <;> simp [MultiLocation.len]

lemma MultiLocation.length_toList : ∀ m : MultiLocation,
    m.toList.length = m.len := by
  intro m; cases m <;> rfl

lemma MultiLocation.ofList_toList : ∀ m : MultiLocation,
    MultiLocation.ofList m.toList = m := by
  intro m; cases m <;> rfl

lemma Ordering.then_eq_right : ∀ o : Ordering, o.then Ordering.eq = o := by
  intro o; cases o <;> rfl

lemma Ordering.then_eq_eq_iff : ∀ o₁ o₂ : Ordering,
    o₁.then o₂ = Ordering.eq ↔ o₁ = Ordering.eq ∧ o₂ = Ordering.eq := by
  intro o₁ o₂; cases o₁ <;> simp [Ordering.then]

lemma Junction.cmp_eq_eq_iff : ∀ a b : Junction,
    Junction.cmp a b = Ordering.eq ↔ a = b := by
  intro a b
  cases a <;> cases b <;> simp [Junction.cmp, Nat.compare_eq_eq]

-- Claim theorems

/-- C10: the empty path `Null` is a two-sided identity for
`appended_with`, and it never fails at an identity position: for every
path `p`, `p.appended_with Null = Ok p` and `Null.appended_with p = Ok p`. -/
theorem appended_with_null_identity (p : MultiLocation) :
    p.appended_with .Null = Except.ok p ∧
    MultiLocation.Null.appended_with p = Except.ok p := by
  cases p <;> exact ⟨rfl, rfl⟩

/-- C9: wrapping any path in the versioned envelope always succeeds with
the `V0` tag; unwrapping succeeds exactly for `V0`, returning the wrapped
path unchanged (so the round trip is the identity), and fails with the
no-payload error `Err(())` for any other version tag, never panicking
(the Lean model is a total function). -/
theorem versioned_roundtrip (m : MultiLocation) (n : Nat) :
    m.toVersioned = VersionedMultiLocation.V0 m ∧
    MultiLocation.tryFromVersioned m.toVersioned = Except.ok m ∧
    MultiLocation.tryFromVersioned (VersionedMultiLocation.VOther n)
      = Except.error () :=
  ⟨rfl, rfl, rfl⟩

/-- C5: `pushed_with` on a length-4 path returns `Err` carrying the input
itself (structurally equal, nothing lost); on a path of length below 4 it
returns `Ok` of the path with the step appended at the innermost end;
`pushed_front_with` is symmetric at the outermost end. -/
theorem pushed_with_spec (m : MultiLocation) (j : Junction) :
    (m.len = 4 →
      m.pushed_with j = Except.error m ∧
      m.pushed_front_with j = Except.error m) ∧
    (m.len < 4 →
      m.pushed_with j = Except.ok (MultiLocation.ofList (m.toList ++ [j])) ∧
      m.pushed_front_with j
        = Except.ok (MultiLocation.ofList (j :: m.toList))) := by
  cases m <;> refine ⟨fun h => ?_, fun h => ?_⟩ <;>
    first
      | exact ⟨rfl, rfl⟩
      | simp [MultiLocation.len] at h

/-- Witness for C5 at a full path and at the empty path. -/
theorem pushed_with_spec_witness :
    MultiLocation.pushed_with
        (.X4 (.Other 0) (.Other 1) (.Other 2) (.Other 3)) (.Other 9)
      = Except.error (.X4 (.Other 0) (.Other 1) (.Other 2) (.Other 3)) ∧
    MultiLocation.pushed_with .Null (.Other 9)
      = Except.ok (.X1 (.Other 9)) :=
  ⟨((pushed_with_spec _ _).1 (by decide)).1,
   ((pushed_with_spec _ _).2 (by decide)).1⟩

/-- C4 counterexample: on the empty path, `split_first` leaves the
remaining path the same length (0), not exactly one shorter, so the
"always exactly one shorter" clause fails at `Null`. -/
theorem split_first_null_not_shorter :
    ¬ ((MultiLocation.Null.split_first).1.len + 1
        = MultiLocation.Null.len) := by
  decide

/-- C4 amended: `split_first` returns (remaining path with the first step
removed, the removed first step, or nothing if the path is empty), and
`split_last` is symmetric at the innermost end; the remaining path is
exactly one step shorter for every non-empty input (on the empty path
both components are unchanged and empty). -/
theorem split_first_last_spec (m : MultiLocation) :
    (m.split_first).2 = m.toList.head? ∧
    (m.split_first).1.toList = m.toList.tail ∧
    (m.split_last).2 = m.toList.getLast? ∧
    (m.split_last).1.toList = m.toList.dropLast ∧
    (m ≠ .Null →
      (m.split_first).1.len + 1 = m.len ∧
      (m.split_last).1.len + 1 = m.len) := by
  cases m
  case Null => exact ⟨rfl, rfl, rfl, rfl, fun h => absurd rfl h⟩
  all_goals exact ⟨rfl, rfl, rfl, rfl, fun _ => ⟨rfl, rfl⟩⟩

/-- Witness for C4's amended claim on a length-2 path. -/
theorem split_first_last_spec_witness :
    ((MultiLocation.X2 (.Other 0) (.Other 1)).split_first).1.len + 1
      = (MultiLocation.X2 (.Other 0) (.Other 1)).len :=
  ((split_first_last_spec _).2.2.2.2 (by decide)).1

/-- C3: `appended_with` pushes the steps of `other` outermost-first onto
the innermost end of `self`; when the combined length fits in 4 it
returns `Ok` of the concatenation, otherwise `Err` of the partial result
accumulated before overflow, whose length is exactly 4 and whose steps
are the first 4 of the would-be concatenation. -/
theorem appended_with_spec (self new : MultiLocation) :
    (self.len + new.len ≤ 4 →
      self.appended_with new
        = Except.ok (MultiLocation.ofList (self.toList ++ new.toList))) ∧
    (4 < self.len + new.len →
      self.appended_with new
        = Except.error
            (MultiLocation.ofList ((self.toList ++ new.toList).take 4)) ∧
      (MultiLocation.ofList ((self.toList ++ new.toList).take 4)).len
        = 4) := by
  cases self <;> cases new <;> refine ⟨fun h => ?_, fun h => ?_⟩ <;>
    first
      | rfl
      | exact ⟨rfl, rfl⟩
      | simp [MultiLocation.len] at h

/-- Witness for C3 at an overflowing pair of paths (3 + 2 steps). -/
theorem appended_with_spec_witness :
    MultiLocation.appended_with (.X3 (.Other 0) (.Other 1) (.Other 2))
        (.X2 (.Other 3) (.Other 4))
      = Except.error (.X4 (.Other 0) (.Other 1) (.Other 2) (.Other 3)) :=
  ((appended_with_spec _ _).2 (by decide)).1

/-- C7: `push` followed immediately by `take_last` (when the path was not
full) succeeds, returns the just-pushed step and restores the original
path; and `split_first` followed by `push_front` of the extracted step
reconstructs the original path for every non-empty input. -/
theorem push_take_roundtrip (m : MultiLocation) (j : Junction) :
    (m.len < 4 →
      (m.push j).2 = Except.ok () ∧
      (m.push j).1.take_last = (m, some j)) ∧
    (∀ rest jf, m.split_first = (rest, some jf) →
      rest.push_front jf = (m, Except.ok ())) := by
  cases m <;> refine ⟨fun h => ?_, fun rest jf hs => ?_⟩ <;>
    first
      | exact ⟨rfl, rfl⟩
      | simp [MultiLocation.len] at h
      | (simp only [MultiLocation.split_first, Prod.mk.injEq,
          Option.some.injEq] at hs
         obtain ⟨h1, h2⟩ := hs
         subst h1; subst h2; rfl)
      | exact absurd hs (by simp [MultiLocation.split_first])

/-- Witness for C7 on a length-1 path and a length-2 path. -/
theorem push_take_roundtrip_witness :
    ((MultiLocation.X1 (.Other 0)).push (.Other 1)).1.take_last
      = (MultiLocation.X1 (.Other 0), some (Junction.Other 1)) ∧
    (MultiLocation.X1 (.Other 1)).push_front (.Other 0)
      = (MultiLocation.X2 (.Other 0) (.Other 1), Except.ok ()) :=
  ⟨((push_take_roundtrip _ _).1 (by decide)).2,
   (push_take_roundtrip (MultiLocation.X2 (.Other 0) (.Other 1))
      (.Other 0)).2 _ _ rfl⟩

-- Splice characterization shared by the prepend claims

lemma spliceLoop_toList : ∀ p s : MultiLocation,
    (spliceLoop 4 p s).toList
      = p.toList.drop (p.len - (4 - s.len)) ++ s.toList := by
  intro p s; cases p <;> cases s <;> rfl

/-- C1: the cancellation loop of `prepend_with` removes the innermost
prefix step and the outermost `self` step while the former exists and is
not `Parent` and the latter is `Parent`; and whenever the combined length
after cancellation fits in 4, the result is the shortened prefix followed
by the remaining contents of `self`. -/
theorem prepend_with_fits (self pre p s : MultiLocation)
    (hc : cancelLoop 4 pre self = (p, s))
    (h : p.len + s.len ≤ 4) :
    (self.prepend_with pre).toList = p.toList ++ s.toList ∧
    (∀ (n : Nat) (p2 s2 : MultiLocation) (x : Junction),
      p2.last = some x → x ≠ Junction.Parent →
      s2.first = some Junction.Parent →
      cancelLoop (n + 1) p2 s2
        = cancelLoop n (p2.take_last).1 (s2.take_first).1) := by
  constructor
  · have hd : self.prepend_with pre = spliceLoop 4 p s := by
      simp only [MultiLocation.prepend_with, hc]
    rw [hd, spliceLoop_toList]
    have h0 : p.len - (4 - s.len) = 0 := by
      have := MultiLocation.len_le_four s
      omega
    rw [h0, List.drop_zero]
  · intro n p2 s2 x hl hx hf
    simp only [cancelLoop, hl, hf]
    rw [if_neg hx]

/-- Witness for C1: prefix [StepA, StepB] and self [Parent, StepC] give
[StepA, StepC]: one step cancels from each side before splicing. -/
theorem prepend_with_fits_witness :
    ((MultiLocation.X2 Junction.Parent (.Other 2)).prepend_with
        (.X2 (.Other 0) (.Other 1))).toList
      = [Junction.Other 0, Junction.Other 2] :=
  (prepend_with_fits (MultiLocation.X2 Junction.Parent (.Other 2))
    (.X2 (.Other 0) (.Other 1)) (.X1 (.Other 0)) (.X1 (.Other 2))
    (by decide) (by decide)).1

/-- Follows C2's wording, not the source, for comparison: splice by
repeatedly pushing the prefix's steps outermost-first onto the front of
self, and when a push fails because self is at length 4, drop that step
and all remaining prefix steps. -/
def spliceOuterFirstClaim : Nat → MultiLocation → MultiLocation →
    MultiLocation
  | 0, _, s => s
  | n + 1, p, s =>
    match p.take_first with
    | (p2, some j) =>
      match s.push_front j with
      | (s2, .ok _) => spliceOuterFirstClaim n p2 s2
      | (_, .error _) => s
    | (_, none) => s

/-- C2 counterexample: with prefix [O0, O1] and self [O2, O3, O4] the
cancellation loop does nothing, and the code (which consumes the prefix
through the reverse iterator, innermost first) produces
[O1, O2, O3, O4], whereas pushing outermost-first as the claim states
would produce [O0, O2, O3, O4]. -/
theorem prepend_with_not_outermost_first :
    cancelLoop 4 (.X2 (.Other 0) (.Other 1))
        (.X3 (.Other 2) (.Other 3) (.Other 4))
      = (.X2 (.Other 0) (.Other 1),
         .X3 (.Other 2) (.Other 3) (.Other 4)) ∧
    (MultiLocation.X3 (.Other 2) (.Other 3) (.Other 4)).prepend_with
        (.X2 (.Other 0) (.Other 1))
      = .X4 (.Other 1) (.Other 2) (.Other 3) (.Other 4) ∧
    spliceOuterFirstClaim 4 (.X2 (.Other 0) (.Other 1))
        (.X3 (.Other 2) (.Other 3) (.Other 4))
      = .X4 (.Other 0) (.Other 2) (.Other 3) (.Other 4) ∧
    (MultiLocation.X3 (.Other 2) (.Other 3) (.Other 4)).prepend_with
        (.X2 (.Other 0) (.Other 1))
      ≠ spliceOuterFirstClaim 4 (.X2 (.Other 0) (.Other 1))
          (.X3 (.Other 2) (.Other 3) (.Other 4)) := by
  exact ⟨by decide, by decide, by decide, by decide⟩

/-- C2 amended: after the cancellation loop, the shortened prefix is
spliced by repeatedly pushing its steps innermost-first onto the front of
self; a push that fails because self is already at length 4 drops that
step silently, and every remaining (more outermost) step is likewise
dropped by its own failing push, so only the innermost 4 - len(self)
prefix steps survive; the operation reports no error in any case. -/
theorem prepend_with_splice (self pre p s : MultiLocation)
    (hc : cancelLoop 4 pre self = (p, s)) :
    self.prepend_with pre = spliceLoop 4 p s ∧
    (self.prepend_with pre).toList
      = p.toList.drop (p.len - (4 - s.len)) ++ s.toList := by
  have hd : self.prepend_with pre = spliceLoop 4 p s := by
    simp only [MultiLocation.prepend_with, hc]
  exact ⟨hd, by rw [hd, spliceLoop_toList]⟩

/-- Witness for C2's amended claim at an overflowing splice. -/
theorem prepend_with_splice_witness :
    ((MultiLocation.X3 (.Other 2) (.Other 3) (.Other 4)).prepend_with
        (.X2 (.Other 0) (.Other 1))).toList
      = [Junction.Other 1, .Other 2, .Other 3, .Other 4] :=
  (prepend_with_splice (MultiLocation.X3 (.Other 2) (.Other 3) (.Other 4))
    (.X2 (.Other 0) (.Other 1)) (.X2 (.Other 0) (.Other 1))
    (.X3 (.Other 2) (.Other 3) (.Other 4)) (by decide)).2

/-- The list of the first `n` values returned by repeatedly calling an
iterator's `next`, threading the iterator state. -/
def outputs {σ : Type} (next : σ → Option Junction × σ) :
    Nat → σ → List (Option Junction)
  | 0, _ => []
  | n + 1, s => (next s).1 :: outputs next n (next s).2

lemma outputs_fwd_null : ∀ k,
    outputs MultiLocationIterator.next k .Null = List.replicate k none := by
  intro k
  induction k with
  | zero => rfl
  | succ k ih => exact congrArg (List.cons none) ih

lemma outputs_rev_null : ∀ k,
    outputs MultiLocationReverseIterator.next k .Null
      = List.replicate k none := by
  intro k
  induction k with
  | zero => rfl
  | succ k ih => exact congrArg (List.cons none) ih

lemma MultiLocation.atIndex_none : ∀ (m : MultiLocation) (i : Nat),
    m.len ≤ i → m.atIndex i = none := by
  intro m i h
  cases m <;> rcases i with _ | _ | _ | _ | i <;>
    first
      | rfl
      | simp [MultiLocation.len] at h

lemma outputs_reffwd_exhausted : ∀ (k : Nat) (m : MultiLocation) (i : Nat),
    m.len ≤ i →
    outputs MultiLocationRefIterator.next k (m, i)
      = List.replicate k none := by
  intro k
  induction k with
  | zero => intro m i h; rfl
  | succ k ih =>
    intro m i h
    exact congrArg₂ List.cons (MultiLocation.atIndex_none m i h)
      (ih m (i + 1) (Nat.le_succ_of_le h))

lemma outputs_refrev_exhausted : ∀ (k : Nat) (m : MultiLocation) (c : Nat),
    m.len ≤ c →
    outputs MultiLocationReverseRefIterator.next k (m, c)
      = List.replicate k none := by
  intro k
  induction k with
  | zero => intro m c h; rfl
  | succ k ih =>
    intro m c h
    have h1 : (MultiLocationReverseRefIterator.next (m, c)).1 = none := by
      show (if c + 1 ≤ m.len then m.atIndex (m.len - (c + 1)) else none)
        = none
      rw [if_neg (by omega)]
    exact congrArg₂ List.cons h1 (ih m (c + 1) (Nat.le_succ_of_le h))

/-- C6: each of the four iterators (owned forward via take_first, owned
reverse via take_last, borrowed forward via at-and-increment, borrowed
reverse via at(len - count)) yields exactly len() items — outermost first
for the forward pair, innermost first for the reverse pair — and every
call after that returns nothing: the iterators terminate and do not
cycle. -/
theorem iterators_complete (m : MultiLocation) (k : Nat) :
    outputs MultiLocationIterator.next (m.len + k) m
      = m.toList.map some ++ List.replicate k none ∧
    outputs MultiLocationReverseIterator.next (m.len + k) m
      = m.toList.reverse.map some ++ List.replicate k none ∧
    outputs MultiLocationRefIterator.next (m.len + k) (m, 0)
      = m.toList.map some ++ List.replicate k none ∧
    outputs MultiLocationReverseRefIterator.next (m.len + k) (m, 0)
      = m.toList.reverse.map some ++ List.replicate k none := by
  have cons2 : ∀ (o : Option Junction) (l1 l2 : List (Option Junction)),
      l1 = l2 → o :: l1 = o :: l2 := fun o l1 l2 h => congrArg (o :: ·) h
  cases m with
  | Null =>
    refine ⟨?_, ?_, ?_, ?_⟩ <;> rw [Nat.add_comm]
    · exact outputs_fwd_null k
    · exact outputs_rev_null k
    · exact outputs_reffwd_exhausted k _ 0 (Nat.le_refl _)
    · exact outputs_refrev_exhausted k _ 0 (Nat.le_refl _)
  | X1 a =>
    refine ⟨?_, ?_, ?_, ?_⟩ <;> rw [Nat.add_comm]
    · exact cons2 _ _ _ (outputs_fwd_null k)
    · exact cons2 _ _ _ (outputs_rev_null k)
    · exact cons2 _ _ _ (outputs_reffwd_exhausted k _ 1 (Nat.le_refl _))
    · exact cons2 _ _ _ (outputs_refrev_exhausted k _ 1 (Nat.le_refl _))
  | X2 a b =>
    refine ⟨?_, ?_, ?_, ?_⟩ <;> rw [Nat.add_comm]
    · exact cons2 _ _ _ (cons2 _ _ _ (outputs_fwd_null k))
    · exact cons2 _ _ _ (cons2 _ _ _ (outputs_rev_null k))
    · exact cons2 _ _ _
        (cons2 _ _ _ (outputs_reffwd_exhausted k _ 2 (Nat.le_refl _)))
    · exact cons2 _ _ _
        (cons2 _ _ _ (outputs_refrev_exhausted k _ 2 (Nat.le_refl _)))
  | X3 a b c =>
    refine ⟨?_, ?_, ?_, ?_⟩ <;> rw [Nat.add_comm]
    · exact cons2 _ _ _ (cons2 _ _ _ (cons2 _ _ _ (outputs_fwd_null k)))
    · exact cons2 _ _ _ (cons2 _ _ _ (cons2 _ _ _ (outputs_rev_null k)))
    · exact cons2 _ _ _ (cons2 _ _ _
        (cons2 _ _ _ (outputs_reffwd_exhausted k _ 3 (Nat.le_refl _))))
    · exact cons2 _ _ _ (cons2 _ _ _
        (cons2 _ _ _ (outputs_refrev_exhausted k _ 3 (Nat.le_refl _))))
  | X4 a b c d =>
    refine ⟨?_, ?_, ?_, ?_⟩ <;> rw [Nat.add_comm]
    · exact cons2 _ _ _ (cons2 _ _ _
        (cons2 _ _ _ (cons2 _ _ _ (outputs_fwd_null k))))
    · exact cons2 _ _ _ (cons2 _ _ _
        (cons2 _ _ _ (cons2 _ _ _ (outputs_rev_null k))))
    · exact cons2 _ _ _ (cons2 _ _ _ (cons2 _ _ _
        (cons2 _ _ _ (outputs_reffwd_exhausted k _ 4 (Nat.le_refl _)))))
    · exact cons2 _ _ _ (cons2 _ _ _ (cons2 _ _ _
        (cons2 _ _ _ (outputs_refrev_exhausted k _ 4 (Nat.le_refl _)))))

/-- C8: the derived total order on paths is lexicographic by variant
discriminant first — which coincides with comparing lengths, since the
discriminant determines the length — and then by pointwise lexicographic
comparison of the step sequences under the step order; equality is
structural. -/
theorem cmp_lexicographic (p q : MultiLocation) :
    (p.cmp q = Ordering.lt ↔
      p.len < q.len ∨
        (p.len = q.len ∧ lexCmp p.toList q.toList = Ordering.lt)) ∧
    (p.cmp q = Ordering.eq ↔ p = q) := by
  cases p <;> cases q <;> refine ⟨?_, ?_⟩ <;>
    simp [MultiLocation.cmp, MultiLocation.len, MultiLocation.toList,
      lexCmp, Ordering.then_eq_right, Ordering.then_eq_eq_iff,
      Junction.cmp_eq_eq_iff]
